import Mathlib

/-!
Verification of the OAuth2 request-authorization filter (`lib/authorise.js`
of node-oauth2-server): bearer-token extraction (`getBearerToken`), token
validation (`validateAccessToken`) and the pipeline (`handle`), shallowly
embedded as pure Lean functions.

Conventions of the embedding:
* A JavaScript value that may be `undefined` is an `Option`; `none` is
  `undefined`.
* JavaScript truthiness of a string value: `undefined` and `""` are falsy.
* JavaScript truthiness of a numeric timestamp: `undefined` and `0` are
  falsy.  Timestamps are `Nat` (milliseconds since the epoch).
* The callback pair `next(err)` / `next(null, v)` becomes `Except`.
-/

deriving instance DecidableEq for Except

namespace Authorise

/-- The character class of the regex escape `\s` in JavaScript
(ECMAScript WhiteSpace and LineTerminator code points). -/
def isJsWs (c : Char) : Bool :=
  c.toNat = 0x20 || c.toNat = 0x09 || c.toNat = 0x0a || c.toNat = 0x0d ||
  c.toNat = 0x0b || c.toNat = 0x0c || c.toNat = 0xa0 || c.toNat = 0x1680 ||
  (0x2000 ≤ c.toNat && c.toNat ≤ 0x200a) || c.toNat = 0x2028 ||
  c.toNat = 0x2029 || c.toNat = 0x202f || c.toNat = 0x205f ||
  c.toNat = 0x3000 || c.toNat = 0xfeff

/-- JavaScript truthiness of a possibly-`undefined` string value:
`undefined` and the empty string are falsy. -/
def jsTruthy : Option String → Bool
  | none => false
  | some s => !s.data.isEmpty

/-- Test that `l` begins with `p` (list version of string prefix testing). -/
def startsWithL : List Char → List Char → Bool
  | [], _ => true
  | _ :: _, [] => false
  | p :: ps, c :: cs => p = c && startsWithL ps cs

/-- The characters of the literal `Bearer` in the regex. -/
def bearerLit : List Char := ['B', 'e', 'a', 'r', 'e', 'r']

/-- The part of the regex after the literal: `\s(\S+)` — one whitespace
character, then a greedy non-empty run of non-whitespace characters, which
is the capture. -/
def matchSep : List Char → Option (List Char)
  | [] => none
  | c :: rest =>
    if isJsWs c then
      let cap := rest.takeWhile (fun d => !isJsWs d)
      if cap.isEmpty then none else some cap
    else none

/-- One attempt of the regex `/Bearer\s(\S+)/` anchored at the head of `l`:
the literal `Bearer` followed by `matchSep` on the remainder. -/
def matchBearerAt (l : List Char) : Option (List Char) :=
  if startsWithL bearerLit l then matchSep (l.drop 6) else none

/-- The search `headerToken.match(/Bearer\s(\S+)/)`: the regex is unanchored, so the
engine tries each start position from the left and returns the capture of
the leftmost match, or `none` when no position matches. -/
def findBearer : List Char → Option (List Char)
  | [] => none
  | c :: rest =>
    match matchBearerAt (c :: rest) with
    | some cap => some cap
    | none => findBearer rest

/-- String-level wrapper of `findBearer`. -/
def findBearerS (s : String) : Option String :=
  (findBearer s.data).map List.asString

/-- An access-token record as returned by the store: an expiry timestamp
(possibly absent) and the user identifier (`expires`, `user_id` in the
source). -/
structure TokenRec where
  expires : Option Nat
  user_id : String
deriving DecidableEq

/-- The identity object `{ id: token.user_id }` attached to the request. -/
structure UserObj where
  id : String
deriving DecidableEq

/-- The readable fields of the Connect request consumed by the filter
(`req.get('Authorization')`, `req.query.access_token`,
`req.body.access_token`, `req.method`) together with the writable
user-identity slot `req.user`. -/
structure Req where
  header : Option String
  query : Option String
  body : Option String
  method : String
  user : Option UserObj
deriving DecidableEq

/-- Modelled from the spec: `lib/error.js` is not part of the provided
sources, so the Protocol Error value is taken from the spec's data model — a
machine-readable kind, a human-readable description that is absent for
internal errors (the constructor call `new OAuth2Error('server_error',
false, err)` suppresses the description from external exposure), and an
optional wrapped cause preserved for internal diagnostics. -/
structure OAuth2Error where
  error : String
  description : Option String
  cause : Option String
deriving DecidableEq

/-- The call `new OAuth2Error(kind, msg)`: user-facing error with a description and
no wrapped cause. -/
def mkErr (kind msg : String) : OAuth2Error :=
  { error := kind, description := some msg, cause := none }

/-- The call `new OAuth2Error('server_error', false, err)`: non-user-facing error,
description suppressed, underlying cause wrapped. -/
def mkServerError (cause : String) : OAuth2Error :=
  { error := "server_error", description := none, cause := some cause }

def errOnlyOneMethod : OAuth2Error :=
  mkErr "invalid_request"
    "Only one method may be used to authenticate at a time (Auth header, GET or POST)."

def errNotFound : OAuth2Error :=
  mkErr "invalid_request" "The access token was not found"

def errMalformed : OAuth2Error :=
  mkErr "invalid_request" "Malformed auth header"

def errMethodPost : OAuth2Error :=
  mkErr "invalid_request" "When putting the token in the body, the method must be POST."

def errInvalidToken : OAuth2Error :=
  mkErr "invalid_grant" "The access token provided is invalid."

def errExpired : OAuth2Error :=
  mkErr "invalid_grant" "The access token provided has expired."

/-- The carrier count of `getBearerToken`:
`(typeof headerToken !== 'undefined') + (typeof getToken !== 'undefined')
 + (typeof postToken !== 'undefined')` — a carrier counts as used exactly
when its value is defined, regardless of emptiness. -/
def methodsUsed (req : Req) : Nat :=
  (if req.header.isSome then 1 else 0) +
  (if req.query.isSome then 1 else 0) +
  (if req.body.isSome then 1 else 0)

/-- The header branch of `getBearerToken`: when `headerToken` is truthy it
must match `/Bearer\s(\S+)/`, and on a match `headerToken` is reassigned to
the captured group. -/
def headerStep (headerToken : Option String) : Except OAuth2Error (Option String) :=
  if jsTruthy headerToken then
    match findBearerS (headerToken.getD "") with
    | none => Except.error errMalformed
    | some cap => Except.ok (some cap)
  else Except.ok headerToken

/-- The POST branch of `getBearerToken`: a truthy body token requires
`req.method === 'POST'`. -/
def postStep (postToken : Option String) (method : String) : Except OAuth2Error Unit :=
  if jsTruthy postToken then
    if method ≠ "POST" then Except.error errMethodPost else Except.ok ()
  else Except.ok ()

/-- The returned value `headerToken || postToken || getToken`: the first
truthy value, or the last value when all are falsy. -/
def jsOr3 (a b c : Option String) : Option String :=
  if jsTruthy a then a else if jsTruthy b then b else c

/-- The extractor `authorise.getBearerToken`: enforce the exactly-one-carrier rule, then
the header-format check, then the body-requires-POST check, and deliver the
resolved (possibly `undefined`) token value. -/
def getBearerToken (req : Req) : Except OAuth2Error (Option String) :=
  if methodsUsed req > 1 then
    Except.error errOnlyOneMethod
  else if methodsUsed req = 0 then
    Except.error errNotFound
  else
    match headerStep req.header with
    | Except.error e => Except.error e
    | Except.ok headerToken =>
      match postStep req.body req.method with
      | Except.error e => Except.error e
      | Except.ok _ => Except.ok (jsOr3 headerToken req.body req.query)

/-- The validator `authorise.validateAccessToken`: reject an absent record as invalid,
reject a falsy or past expiry (`!token.expires || token.expires < this.now`)
as expired, and otherwise set `req.user = { id: token.user_id }` and
continue, returning the updated request. -/
def validateAccessToken (token : Option TokenRec) (now : Nat) (req : Req) :
    Except OAuth2Error Req :=
  match token with
  | none => Except.error errInvalidToken
  | some t =>
    match t.expires with
    | none => Except.error errExpired
    | some e =>
      if e = 0 then Except.error errExpired
      else if e < now then Except.error errExpired
      else Except.ok { req with user := some { id := t.user_id } }

/-- The store interface `model.getAccessToken(bearerToken, callback)`: the
callback receives either an infrastructure error or the (possibly absent)
token record. -/
def Store := Option String → Except String (Option TokenRec)

/-- The per-request outcome signalled to `next`: continue with no error, or
abort with a Protocol Error. -/
inductive Outcome where
  | admitted : Outcome
  | rejected : OAuth2Error → Outcome
deriving DecidableEq

/-- The pipeline `authorise.handle`: run extraction; on success look the token up in the
store, wrapping a store failure as a non-user-facing `server_error`; then
validate.  The result is the signalled outcome together with the request
state afterwards. -/
def handle (req : Req) (store : Store) (now : Nat) : Outcome × Req :=
  match getBearerToken req with
  | Except.error e => (Outcome.rejected e, req)
  | Except.ok bearerToken =>
    match store bearerToken with
    | Except.error cause => (Outcome.rejected (mkServerError cause), req)
    | Except.ok token =>
      match validateAccessToken token now req with
      | Except.error e => (Outcome.rejected e, req)
      | Except.ok req' => (Outcome.admitted, req')

/-- A request with no carriers at all, used as a concrete test input. -/
def reqEmpty : Req :=
  { header := none, query := none, body := none, method := "GET", user := none }

/-- A request presenting the token only in the query string. -/
def reqQuery : Req :=
  { header := none, query := some "xyz", body := none, method := "GET", user := none }

/-- A request presenting the token only in the body, on a GET request. -/
def reqBody : Req :=
  { header := none, query := none, body := some "tok", method := "GET", user := none }

/-- A store with no records. -/
def storeEmpty : Store := fun _ => Except.ok none

/-- A store holding exactly the record for token `abc`. -/
def storeAbc : Store := fun t =>
  if t = some "abc" then Except.ok (some { expires := some 10, user_id := "u1" })
  else Except.ok none

/-- A store whose lookup itself fails. -/
def storeDown : Store := fun _ => Except.error "connection refused"


/-- C5: a candidate token for which the store lookup returns no record is
rejected with `invalid_grant` / "The access token provided is invalid." -/
theorem unknown_token_rejected_invalid (req : Req) (store : Store) (now : Nat)
    (tok : Option String)
    (hx : getBearerToken req = Except.ok tok)
    (hs : store tok = Except.ok none) :
    handle req store now = (Outcome.rejected errInvalidToken, req) := by
  simp only [handle, hx, hs, validateAccessToken]

/-- Witness for C5: token `xyz` from the query string against an empty
store. -/
theorem unknown_token_rejected_invalid_witness :
    handle reqQuery storeEmpty 0 = (Outcome.rejected errInvalidToken, reqQuery) :=
  unknown_token_rejected_invalid reqQuery storeEmpty 0 (some "xyz") rfl rfl

/-- C6: a failure of the lookup capability itself is rejected with a
`server_error` Protocol Error whose description is suppressed and which
wraps the underlying cause. -/
theorem store_failure_rejected_server_error (req : Req) (store : Store) (now : Nat)
    (tok : Option String) (cause : String)
    (hx : getBearerToken req = Except.ok tok)
    (hs : store tok = Except.error cause) :
    handle req store now = (Outcome.rejected (mkServerError cause), req) ∧
    (mkServerError cause).description = none ∧
    (mkServerError cause).cause = some cause := by
  refine ⟨?_, rfl, rfl⟩
  simp only [handle, hx, hs]

/-- Witness for C6: a store whose lookup fails with "connection refused". -/
theorem store_failure_rejected_server_error_witness :
    handle reqQuery storeDown 0 =
      (Outcome.rejected (mkServerError "connection refused"), reqQuery) := by
  exact (store_failure_rejected_server_error reqQuery storeDown 0 (some "xyz")
    "connection refused" rfl rfl).1

/-- C10: when extraction fails, the store is never consulted — the pipeline
rejects with the extraction error for every store and time. -/
theorem extraction_failure_ignores_store (req : Req) (e : OAuth2Error)
    (hx : getBearerToken req = Except.error e) :
    (∀ store now, handle req store now = (Outcome.rejected e, req)) ∧
    (∀ store1 store2 now1 now2,
      handle req store1 now1 = handle req store2 now2) := by
  have h : ∀ store now, handle req store now = (Outcome.rejected e, req) := by
    intro store now
    simp only [handle, hx]
  exact ⟨h, fun s1 s2 n1 n2 => (h s1 n1).trans (h s2 n2).symm⟩

/-- Witness for C10: a request with no carriers rejects identically against
a populated store. -/
theorem extraction_failure_ignores_store_witness :
    handle reqEmpty storeAbc 0 = (Outcome.rejected errNotFound, reqEmpty) := by
  exact (extraction_failure_ignores_store reqEmpty errNotFound rfl).1 storeAbc 0

/-- C4: a stored record with expiry strictly after the current time is
admitted, with the user slot set to the record's user identifier. -/
theorem fresh_token_admits (req : Req) (store : Store) (now : Nat)
    (tok : Option String) (rec : TokenRec) (e : Nat)
    (hx : getBearerToken req = Except.ok tok)
    (hs : store tok = Except.ok (some rec))
    (he : rec.expires = some e) (hlt : now < e) :
    handle req store now =
      (Outcome.admitted, { req with user := some { id := rec.user_id } }) := by
  simp only [handle, hx, hs, validateAccessToken, he]
  rw [if_neg (by omega : ¬ e = 0), if_neg (by omega : ¬ e < now)]

/-- Witness for C4: header token `abc` against a store whose record expires
at 10, checked at time 0. -/
theorem fresh_token_admits_witness :
    handle { reqEmpty with header := some "Bearer abc" } storeAbc 0 =
      (Outcome.admitted,
        { reqEmpty with header := some "Bearer abc",
                        user := some { id := "u1" } }) := by
  exact fresh_token_admits _ storeAbc 0 (some "abc")
    { expires := some 10, user_id := "u1" } 10 (by decide) rfl rfl (by decide)

/-- C7: a non-empty body token as the only carrier, on a non-POST request,
is rejected at extraction time with the method-must-be-POST error, for every
store. -/
theorem body_token_requires_post (req : Req) (b : String)
    (hb : req.body = some b) (hbne : b ≠ "")
    (hh : req.header = none) (hq : req.query = none)
    (hm : req.method ≠ "POST") :
    getBearerToken req = Except.error errMethodPost ∧
    ∀ store now, handle req store now = (Outcome.rejected errMethodPost, req) := by
  have hbd : b.data ≠ [] := fun h => hbne (String.ext h)
  have hbt : jsTruthy (some b) = true := by
    cases hd : b.data with
    | nil => exact absurd hd hbd
    | cons x xs => simp [jsTruthy, hd]
  have hmu : methodsUsed req = 1 := by simp [methodsUsed, hb, hh, hq]
  have hx : getBearerToken req = Except.error errMethodPost := by
    simp only [getBearerToken, hmu, hh, hb, headerStep, postStep, hbt]
    simp [hm, jsTruthy]
  exact ⟨hx, fun store now => by simp only [handle, hx]⟩

/-- Witness for C7: body token `tok` on a GET request. -/
theorem body_token_requires_post_witness :
    getBearerToken reqBody = Except.error errMethodPost := by
  exact (body_token_requires_post reqBody "tok" rfl (by decide) rfl rfl
    (by decide)).1


/-- Full case analysis of `handle`: it either rejects and returns the request
unchanged, or admits and returns the request with only the user slot
rewritten; in both cases the outcome is insensitive to the incoming user
slot. -/
lemma handle_main (req : Req) (store : Store) (now : Nat) :
    (∃ e, handle req store now = (Outcome.rejected e, req) ∧
       ∀ u, handle { req with user := u } store now =
              (Outcome.rejected e, { req with user := u })) ∨
    (∃ w, handle req store now = (Outcome.admitted, { req with user := some w }) ∧
       ∀ u, handle { req with user := u } store now =
              (Outcome.admitted, { req with user := some w })) := by
  have hg : ∀ u : Option UserObj,
      getBearerToken { req with user := u } = getBearerToken req := fun _ => rfl
  cases hx : getBearerToken req with
  | error e =>
    exact Or.inl ⟨e, by simp only [handle, hx],
      fun u => by simp only [handle, hg, hx]⟩
  | ok tok =>
    cases hs : store tok with
    | error c =>
      exact Or.inl ⟨mkServerError c, by simp only [handle, hx, hs],
        fun u => by simp only [handle, hg, hx, hs]⟩
    | ok t =>
      cases t with
      | none =>
        exact Or.inl ⟨errInvalidToken,
          by simp only [handle, hx, hs, validateAccessToken],
          fun u => by simp only [handle, hg, hx, hs, validateAccessToken]⟩
      | some rec =>
        cases he : rec.expires with
        | none =>
          exact Or.inl ⟨errExpired,
            by simp only [handle, hx, hs, validateAccessToken, he],
            fun u => by simp only [handle, hg, hx, hs, validateAccessToken, he]⟩
        | some ev =>
          by_cases h0 : ev = 0
          · exact Or.inl ⟨errExpired,
              by simp [handle, hx, hs, validateAccessToken, he, h0],
              fun u => by simp [handle, hg, hx, hs, validateAccessToken, he, h0]⟩
          · by_cases hlt : ev < now
            · exact Or.inl ⟨errExpired,
                by simp [handle, hx, hs, validateAccessToken, he, h0, hlt],
                fun u =>
                  by simp [handle, hg, hx, hs, validateAccessToken, he, h0, hlt]⟩
            · exact Or.inr ⟨{ id := rec.user_id },
                by simp [handle, hx, hs, validateAccessToken, he, h0, hlt],
                fun u =>
                  by simp [handle, hg, hx, hs, validateAccessToken, he, h0, hlt]⟩

/-- C8: the pipeline leaves every readable request field unchanged, returns
the request untouched on every rejection, and on admission changes at most
the user slot. -/
theorem handle_frame (req : Req) (store : Store) (now : Nat) :
    ((handle req store now).2.header = req.header ∧
     (handle req store now).2.query = req.query ∧
     (handle req store now).2.body = req.body ∧
     (handle req store now).2.method = req.method) ∧
    (∀ e, (handle req store now).1 = Outcome.rejected e →
      (handle req store now).2 = req) ∧
    ((handle req store now).1 = Outcome.admitted →
      ∃ w, (handle req store now).2 = { req with user := some w }) := by
  rcases handle_main req store now with ⟨e, he, -⟩ | ⟨w, hw, -⟩
  · rw [he]
    exact ⟨⟨rfl, rfl, rfl, rfl⟩, fun _ _ => rfl, fun h => by simp at h⟩
  · rw [hw]
    exact ⟨⟨rfl, rfl, rfl, rfl⟩, fun e h => by simp at h, fun _ => ⟨w, rfl⟩⟩

/-- Witness for C8: a rejected request is returned unchanged. -/
theorem handle_frame_witness :
    (handle reqEmpty storeAbc 0).2 = reqEmpty := by
  have h : (handle reqEmpty storeAbc 0).1 = Outcome.rejected errNotFound := by
    decide
  exact (handle_frame reqEmpty storeAbc 0).2.1 errNotFound h

/-- C9: the outcome does not depend on the incoming user slot, and re-running
the pipeline on the request state left by a first run reproduces the first
run's outcome and request state exactly. -/
theorem handle_idempotent (req : Req) (store : Store) (now : Nat) :
    (∀ u, (handle { req with user := u } store now).1 =
            (handle req store now).1) ∧
    handle ((handle req store now).2) store now = handle req store now := by
  rcases handle_main req store now with ⟨e, he, hu⟩ | ⟨w, hw, hu⟩
  · exact ⟨fun u => by rw [he, hu u], by rw [he]; exact he⟩
  · exact ⟨fun u => by rw [hw, hu u], by rw [hw]; exact hu (some w)⟩

/-- C1 counterexample: a record whose expiry equals the current time is
admitted, not rejected as expired — `token.expires < this.now` is strict. -/
theorem expiry_equal_now_admitted :
    validateAccessToken (some { expires := some 5, user_id := "u1" }) 5 reqEmpty =
      Except.ok { reqEmpty with user := some { id := "u1" } } ∧
    validateAccessToken (some { expires := some 5, user_id := "u1" }) 5 reqEmpty ≠
      Except.error errExpired := by
  decide

/-- C1 amended: validation of a present record fails as expired exactly when
the expiry is absent, zero (falsy), or strictly earlier than the current
time. -/
theorem validate_expired_iff (t : TokenRec) (now : Nat) (req : Req) :
    validateAccessToken (some t) now req = Except.error errExpired ↔
      (t.expires = none ∨ t.expires = some 0 ∨
        ∃ e, t.expires = some e ∧ e < now) := by
  unfold validateAccessToken
  cases he : t.expires with
  | none => simp [he]
  | some ev =>
    by_cases h0 : ev = 0
    · simp [he, h0]
    · by_cases hlt : ev < now
      · simp [he, h0, hlt]
      · simp [he, h0, hlt]

/-- C3 counterexample: a defined but empty Authorization header counts as a
used carrier, so together with a query token the request is rejected as
using two methods even though only one carrier is non-empty. -/
theorem empty_header_counts_as_carrier :
    jsTruthy (some "") = false ∧
    getBearerToken
        { header := some "", query := some "x", body := none,
          method := "GET", user := none } =
      Except.error errOnlyOneMethod := by
  decide

/-- C3 amended: with presence meaning the carrier is defined (even if
empty), a zero count is rejected as not-found and a count above one as
multiple methods, before any header-format or method check. -/
theorem carrier_count_checks (req : Req) :
    (methodsUsed req = 0 → getBearerToken req = Except.error errNotFound) ∧
    (methodsUsed req > 1 →
      getBearerToken req = Except.error errOnlyOneMethod) := by
  constructor
  · intro h
    simp [getBearerToken, h]
  · intro h
    unfold getBearerToken
    rw [if_pos h]

/-- Witness for C3: the empty request has no defined carrier. -/
theorem carrier_count_checks_witness :
    getBearerToken reqEmpty = Except.error errNotFound := by
  exact (carrier_count_checks reqEmpty).1 (by decide)


/-- Predicate characterization: `startsWithL p l` holds exactly when `l` is `p` followed by some tail. -/
lemma startsWithL_iff (p : List Char) : ∀ l, startsWithL p l = true ↔ ∃ t, l = p ++ t := by
  induction p with
  | nil => intro l; simp [startsWithL]
  | cons a as ih =>
    intro l
    cases l with
    | nil => simp [startsWithL]
    | cons c cs =>
      simp only [startsWithL, Bool.and_eq_true, decide_eq_true_eq, ih cs,
        List.cons_append, List.cons.injEq]
      constructor
      · rintro ⟨rfl, t, rfl⟩
        exact ⟨t, rfl, rfl⟩
      · rintro ⟨t, rfl, rfl⟩
        exact ⟨rfl, t, rfl⟩

/-- The head of the remainder of `dropWhile` fails the predicate. -/
lemma dropWhile_head_not (p : Char → Bool) :
    ∀ (l : List Char) (d : Char) (t : List Char),
      l.dropWhile p = d :: t → p d = false := by
  intro l
  induction l with
  | nil => intro d t h; simp at h
  | cons x xs ih =>
    intro d t h
    rw [List.dropWhile_cons] at h
    by_cases hx : p x = true
    · rw [if_pos hx] at h
      exact ih d t h
    · rw [if_neg hx] at h
      cases h
      simpa using hx

/-- Soundness of one anchored regex attempt: a successful match decomposes
the input as `Bearer`, one whitespace character, the capture (non-empty,
all non-whitespace) and a remainder that is empty or starts with
whitespace (greediness). -/
lemma matchBearerAt_sound (l cap : List Char) (h : matchBearerAt l = some cap) :
    ∃ c suf, l = bearerLit ++ c :: (cap ++ suf) ∧ isJsWs c = true ∧ cap ≠ [] ∧
      (∀ d ∈ cap, isJsWs d = false) ∧
      (suf = [] ∨ ∃ d t, suf = d :: t ∧ isJsWs d = true) := by
  unfold matchBearerAt at h
  by_cases hs : startsWithL bearerLit l = true
  · rw [if_pos hs] at h
    obtain ⟨t, rfl⟩ := (startsWithL_iff bearerLit l).mp hs
    rw [show (bearerLit ++ t).drop 6 = t from List.drop_left bearerLit t] at h
    cases t with
    | nil => simp [matchSep] at h
    | cons c rest =>
      rw [matchSep] at h
      by_cases hc : isJsWs c = true
      · rw [if_pos hc] at h
        by_cases he : (rest.takeWhile (fun d => !isJsWs d)).isEmpty = true
        · rw [if_pos he] at h
          simp at h
        · rw [if_neg he] at h
          injection h with hcap
          refine ⟨c, rest.dropWhile (fun d => !isJsWs d), ?_, hc, ?_, ?_, ?_⟩
          · rw [← hcap, List.takeWhile_append_dropWhile]
          · rw [← hcap]
            intro hnil
            rw [hnil] at he
            simp at he
          · intro d hd
            rw [← hcap] at hd
            have := List.mem_takeWhile_imp hd
            simpa using this
          · cases hdw : rest.dropWhile (fun d => !isJsWs d) with
            | nil => exact Or.inl rfl
            | cons d t =>
              refine Or.inr ⟨d, t, rfl, ?_⟩
              have := dropWhile_head_not (fun d => !isJsWs d) rest d t hdw
              simpa using this
      · rw [if_neg hc] at h
        simp at h
  · rw [if_neg hs] at h
    simp at h

/-- Completeness of one anchored regex attempt: an input of the shape
`Bearer`, whitespace, a non-empty non-whitespace run, anything — is
matched. -/
lemma matchBearerAt_complete (c : Char) (tok suf : List Char)
    (hc : isJsWs c = true) (ht : tok ≠ [])
    (hall : ∀ d ∈ tok, isJsWs d = false) :
    matchBearerAt (bearerLit ++ c :: (tok ++ suf)) ≠ none := by
  intro h
  unfold matchBearerAt at h
  rw [if_pos ((startsWithL_iff bearerLit _).mpr ⟨_, rfl⟩)] at h
  rw [show (bearerLit ++ c :: (tok ++ suf)).drop 6 = c :: (tok ++ suf) from
    List.drop_left bearerLit _] at h
  rw [matchSep, if_pos hc] at h
  cases tok with
  | nil => exact ht rfl
  | cons t0 ts =>
    have h0 : (!isJsWs t0) = true := by
      rw [hall t0 (List.mem_cons_self t0 ts)]
      rfl
    rw [List.cons_append] at h
    simp [List.takeWhile_cons, h0] at h


/-- Soundness of the unanchored search: a successful search decomposes the
input around the leftmost occurrence of the pattern — the capture is greedy
and every other occurrence starts no earlier. -/
lemma findBearer_sound : ∀ l cap, findBearer l = some cap →
    ∃ pre c suf, l = pre ++ (bearerLit ++ c :: (cap ++ suf)) ∧ isJsWs c = true ∧
      cap ≠ [] ∧ (∀ d ∈ cap, isJsWs d = false) ∧
      (suf = [] ∨ ∃ d t, suf = d :: t ∧ isJsWs d = true) ∧
      (∀ pre' (c' : Char) tok' suf',
        l = pre' ++ (bearerLit ++ c' :: (tok' ++ suf')) →
        isJsWs c' = true → tok' ≠ [] → (∀ d ∈ tok', isJsWs d = false) →
        pre.length ≤ pre'.length) := by
  intro l
  induction l with
  | nil => intro cap h; simp [findBearer] at h
  | cons x rest ih =>
    intro cap h
    rw [findBearer] at h
    cases hm : matchBearerAt (x :: rest) with
    | some cap' =>
      rw [hm] at h
      injection h with h'
      subst h'
      obtain ⟨c, suf, heq, hc, hne, hall, hmax⟩ := matchBearerAt_sound _ _ hm
      exact ⟨[], c, suf, by simpa using heq, hc, hne, hall, hmax,
        fun pre' c' tok' suf' _ _ _ _ => Nat.zero_le _⟩
    | none =>
      rw [hm] at h
      obtain ⟨pre, c, suf, heq, hc, hne, hall, hmax, hmin⟩ := ih cap h
      refine ⟨x :: pre, c, suf, by rw [List.cons_append, ← heq], hc, hne, hall,
        hmax, ?_⟩
      intro pre' c' tok' suf' heq' hc' ht' hall'
      cases pre' with
      | nil =>
        rw [List.nil_append] at heq'
        exact absurd (heq' ▸ hm)
          (matchBearerAt_complete c' tok' suf' hc' ht' hall')
      | cons y pre'' =>
        rw [List.cons_append] at heq'
        injection heq' with h1 h2
        have := hmin pre'' c' tok' suf' h2 hc' ht' hall'
        simp only [List.length_cons]
        omega

/-- Completeness of the unanchored search: whenever the input contains the
pattern anywhere, the search succeeds. -/
lemma findBearer_complete : ∀ l pre (c : Char) tok suf,
    l = pre ++ (bearerLit ++ c :: (tok ++ suf)) →
    isJsWs c = true → tok ≠ [] → (∀ d ∈ tok, isJsWs d = false) →
    findBearer l ≠ none := by
  intro l
  induction l with
  | nil =>
    intro pre c tok suf heq _ _ _ _
    cases pre <;> simp [bearerLit] at heq
  | cons x rest ih =>
    intro pre c tok suf heq hc ht hall h
    rw [findBearer] at h
    cases hm : matchBearerAt (x :: rest) with
    | some cap' => rw [hm] at h; simp at h
    | none =>
      rw [hm] at h
      cases pre with
      | nil =>
        rw [List.nil_append] at heq
        exact matchBearerAt_complete c tok suf hc ht hall (heq ▸ hm)
      | cons y pre' =>
        rw [List.cons_append] at heq
        injection heq with h1 h2
        exact ih pre' c tok suf h2 hc ht hall h


/-- C2 counterexample: the regex is unanchored and its separator is any
whitespace, so a tab-separated header and a header with surrounding text
are both accepted (capturing `abc`), and a defined-but-empty header is not
rejected as malformed — extraction succeeds with no token value. -/
theorem non_canonical_headers_accepted :
    getBearerToken
        { header := some "Bearer	abc", query := none, body := none,
          method := "GET", user := none } = Except.ok (some "abc") ∧
    getBearerToken
        { header := some "xx Bearer abc tail", query := none, body := none,
          method := "GET", user := none } = Except.ok (some "abc") ∧
    getBearerToken
        { header := some "", query := none, body := none,
          method := "GET", user := none } = Except.ok none := by
  decide

/-- Truthiness of `undefined` is false. -/
lemma jsTruthy_none : jsTruthy none = false := rfl

/-- C2 amended: for a request whose only carrier is a non-empty
Authorization header, extraction fails with "Malformed auth header" exactly
when no position of the header matches `Bearer` followed by one whitespace
character and a non-empty run of non-whitespace characters; and on success
the extracted token is the capture of the leftmost match — non-empty, all
non-whitespace, preceded by `Bearer` plus one whitespace character, maximal
(the remainder is empty or starts with whitespace), and no matching
occurrence of the pattern starts earlier in the header. -/
theorem header_regex_characterization (h m : String) (hne : h ≠ "") :
    (getBearerToken
        { header := some h, query := none, body := none,
          method := m, user := none } = Except.error errMalformed ↔
      ¬ ∃ pre c tok suf, h.data = pre ++ (bearerLit ++ c :: (tok ++ suf)) ∧
          isJsWs c = true ∧ tok ≠ [] ∧ ∀ d ∈ tok, isJsWs d = false) ∧
    (∀ tk, getBearerToken
        { header := some h, query := none, body := none,
          method := m, user := none } = Except.ok tk →
      ∃ cap pre c suf, tk = some (List.asString cap) ∧
        h.data = pre ++ (bearerLit ++ c :: (cap ++ suf)) ∧ isJsWs c = true ∧
        cap ≠ [] ∧ (∀ d ∈ cap, isJsWs d = false) ∧
        (suf = [] ∨ ∃ d t, suf = d :: t ∧ isJsWs d = true) ∧
        ∀ pre' (c' : Char) tok' suf',
          h.data = pre' ++ (bearerLit ++ c' :: (tok' ++ suf')) →
          isJsWs c' = true → tok' ≠ [] → (∀ d ∈ tok', isJsWs d = false) →
          pre.length ≤ pre'.length) := by
  have hdne : h.data ≠ [] := fun hd => hne (String.ext hd)
  have ht : jsTruthy (some h) = true := by
    cases hd : h.data with
    | nil => exact absurd hd hdne
    | cons x xs => simp [jsTruthy, hd]
  cases hf : findBearer h.data with
  | none =>
    have hres : getBearerToken
        { header := some h, query := none, body := none,
          method := m, user := none } = Except.error errMalformed := by
      simp [getBearerToken, methodsUsed, headerStep, ht, findBearerS, hf]
    constructor
    · rw [hres]
      constructor
      · rintro - ⟨pre, c, tok, suf, heq, hc, htok, hall⟩
        exact findBearer_complete h.data pre c tok suf heq hc htok hall hf
      · intro _
        rfl
    · intro tk htk
      rw [hres] at htk
      exact absurd htk (by simp)
  | some cap =>
    obtain ⟨pre, c, suf, heq, hc, hcne, hall, hmax, hmin⟩ :=
      findBearer_sound h.data cap hf
    have hcaps : jsTruthy (some (List.asString cap)) = true := by
      cases cap with
      | nil => exact absurd rfl hcne
      | cons d ds => simp [jsTruthy, List.asString]
    have hres : getBearerToken
        { header := some h, query := none, body := none,
          method := m, user := none } = Except.ok (some (List.asString cap)) := by
      simp [getBearerToken, methodsUsed, headerStep, postStep, jsOr3, ht,
        findBearerS, hf, hcaps, jsTruthy_none]
    constructor
    · rw [hres]
      constructor
      · intro habs
        exact absurd habs (by simp)
      · intro hnex
        exact absurd ⟨pre, c, cap, suf, heq, hc, hcne, hall⟩ hnex
    · intro tk htk
      rw [hres] at htk
      injection htk with htk'
      exact ⟨cap, pre, c, suf, htk'.symm, heq, hc, hcne, hall, hmax, hmin⟩

/-- Witness for C2 amended: `Basic xyz` matches the pattern nowhere. -/
theorem header_regex_characterization_witness :
    ¬ ∃ pre c tok suf,
        ("Basic xyz").data = pre ++ (bearerLit ++ c :: (tok ++ suf)) ∧
        isJsWs c = true ∧ tok ≠ [] ∧ ∀ d ∈ tok, isJsWs d = false := by
  exact (header_regex_characterization "Basic xyz" "GET" (by decide)).1.mp
    (by decide)

end Authorise
